import Mathlib

/-!
Verification of the data-ingestion pipeline of the carbon-footprint
explorer dashboard (`src/utils/dataGenerator.ts`).

The TypeScript source is shallowly embedded:
  * JavaScript numbers are modelled as rationals (ℚ); `parseInt` /
    `parseFloat` return `Option` values, `none` standing for NaN
    (the model covers the decimal literal forms occurring in CSV data);
  * strings are Lean `String`s, manipulated through their character
    lists so that everything is executable;
  * `Math.random()` is an explicit stream `rand : Nat → ℚ` of values,
    consumed left to right exactly as the source consumes calls;
  * the module-level cache `cachedData` and the `fetch` outcome are
    explicit arguments of the load operation, which returns the produced
    dataset together with the new cache contents and whether the network
    was consulted.
-/

/-- Characters treated as whitespace by `String.prototype.trim` (ASCII part). -/
def jsWhite (c : Char) : Bool := c.isWhitespace

/-- `String.prototype.trim` on a character list: drop whitespace at both ends. -/
def trimChars (cs : List Char) : List Char :=
  ((cs.dropWhile jsWhite).reverse.dropWhile jsWhite).reverse

/-- `String.prototype.trim`. -/
def trimS (s : String) : String := String.mk (trimChars s.data)

/-- `String.prototype.split` with a one-character separator. -/
def splitOnChar (sep : Char) : List Char → List (List Char)
  | [] => [[]]
  | c :: rest =>
    if c = sep then [] :: splitOnChar sep rest
    else
      match splitOnChar sep rest with
      | [] => [[c]]
      | g :: gs => (c :: g) :: gs

/-- Substring test on character lists (`String.prototype.includes`). -/
def hasSubstrChars (needle : List Char) : List Char → Bool
  | [] => needle.isEmpty
  | c :: rest => needle.isPrefixOf (c :: rest) || hasSubstrChars needle rest

/-- `s.includes(needle)`. -/
def hasSubstr (needle s : String) : Bool := hasSubstrChars needle.data s.data

/-- Value of a digit string read most-significant first. -/
def digitsVal (ds : List Char) : Nat :=
  ds.foldl (fun acc c => 10 * acc + (c.toNat - 48)) 0

/-- Longest leading run of decimal digits, as a number; `none` when empty. -/
def leadDigits (cs : List Char) : Option Nat :=
  let ds := cs.takeWhile Char.isDigit
  if ds.isEmpty then none else some (digitsVal ds)

/-- JavaScript `parseInt` (radix 10): skip whitespace, optional sign, longest
digit run; NaN (= `none`) when no digit is found. -/
def jsParseInt (s : String) : Option Int :=
  match s.data.dropWhile jsWhite with
  | '-' :: rest => (leadDigits rest).map (fun n => -(n : Int))
  | '+' :: rest => (leadDigits rest).map (fun n => (n : Int))
  | cs => (leadDigits cs).map (fun n => (n : Int))

/-- Exponent part accepted by `parseFloat`: `e`/`E`, optional sign, digits;
anything else contributes exponent 0 (`parseFloat` backtracks over a dangling
`e`). -/
def floatExpVal (cs : List Char) : Int :=
  match cs with
  | 'e' :: rest =>
    (match rest with
     | '-' :: r => ((leadDigits r).map (fun n => -(n : Int))).getD 0
     | '+' :: r => ((leadDigits r).map (fun n => (n : Int))).getD 0
     | r => ((leadDigits r).map (fun n => (n : Int))).getD 0)
  | 'E' :: rest =>
    (match rest with
     | '-' :: r => ((leadDigits r).map (fun n => -(n : Int))).getD 0
     | '+' :: r => ((leadDigits r).map (fun n => (n : Int))).getD 0
     | r => ((leadDigits r).map (fun n => (n : Int))).getD 0)
  | _ => 0

/-- Kernel-reducible natural power on ℚ. -/
def ratNpow (q : ℚ) : Nat → ℚ
  | 0 => 1
  | n + 1 => ratNpow q n * q

/-- Kernel-reducible integer power on ℚ. -/
def ratZpow (q : ℚ) (z : Int) : ℚ :=
  if 0 ≤ z then ratNpow q z.toNat else (ratNpow q (-z).toNat)⁻¹

/-- Unsigned significand (digits, optional fraction) with exponent applied;
`none` when the significand has no digit at all. -/
def parseFloatMag (cs : List Char) : Option ℚ :=
  let intDs := cs.takeWhile Char.isDigit
  let rest1 := cs.dropWhile Char.isDigit
  let fracDs :=
    match rest1 with
    | '.' :: r => r.takeWhile Char.isDigit
    | _ => []
  let rest2 :=
    match rest1 with
    | '.' :: r => r.dropWhile Char.isDigit
    | _ => rest1
  if intDs.isEmpty && fracDs.isEmpty then none
  else
    some (((digitsVal intDs : ℚ) + (digitsVal fracDs : ℚ) / ratNpow 10 fracDs.length)
      * ratZpow 10 (floatExpVal rest2))

/-- JavaScript `parseFloat`: skip whitespace, optional sign, decimal
significand with optional fraction and exponent; NaN (= `none`) when no digit
is found. -/
def jsParseFloat (s : String) : Option ℚ :=
  match s.data.dropWhile jsWhite with
  | '-' :: rest => (parseFloatMag rest).map (fun q => -q)
  | '+' :: rest => parseFloatMag rest
  | cs => parseFloatMag cs

/-- One normalized country–year observation (`EmissionData` in the source). -/
structure EmissionData where
  country : String
  year : Int
  co2_emissions : ℚ
  population : ℚ
  gdp_per_capita : ℚ
  co2_per_capita : ℚ
  deriving DecidableEq, Repr

/-- Character scan of `parseCSVRow`: `current` is the field being built,
`inQuotes` the quote flag; a `"` only toggles the flag, a `,` outside quotes
ends the field (pushed trimmed), and the last field is pushed at end of input. -/
def parseCSVAux : List Char → List Char → Bool → List String
  | [], current, _ => [String.mk (trimChars current)]
  | c :: rest, current, inQuotes =>
    if c = '"' then parseCSVAux rest current (!inQuotes)
    else if c = ',' ∧ inQuotes = false then
      String.mk (trimChars current) :: parseCSVAux rest [] false
    else parseCSVAux rest (current ++ [c]) inQuotes

/-- `parseCSVRow`: split one line into trimmed field values, honouring
double-quoted spans. -/
def parseCSVRow (row : List Char) : List String := parseCSVAux row [] false


/-- Last index at which `key` occurs in `headers`, positions counted from
offset `n`.  Models the object built by
`headers.forEach((header, index) => rowData[header] = values[index] || '')`:
a later assignment to the same property name overwrites an earlier one. -/
def lastIdxFrom (key : String) : List String → Nat → Option Nat
  | [], _ => none
  | h :: hs, n =>
    match lastIdxFrom key hs (n + 1) with
    | some j => some j
    | none => if h = key then some n else none

/-- `rowData[key]`: the value at the last header position named `key`
(out-of-range row positions default to the empty string, as does a falsy
`values[index]`); `none` is the absent-property (`undefined`) case. -/
def rowData (headers values : List String) (key : String) : Option String :=
  (lastIdxFrom key headers 0).map (fun i => values.getD i "")

/-- Lines 55–85 of the source: extract the named fields from the row, apply
the validation filter, and build the normalized record.  `none` covers both
a missing/NaN mandatory field and a validation rejection (`parseInt` /
`parseFloat` of `undefined` is NaN, so the field lookups and the NaN checks
fuse into `Option.bind`). -/
def normalizeRow (headers values : List String) : Option EmissionData :=
  match (rowData headers values "country").map trimS,
        (rowData headers values "year").bind jsParseInt,
        (rowData headers values "co2").bind jsParseFloat,
        (rowData headers values "population").bind jsParseFloat,
        (rowData headers values "gdp").bind jsParseFloat with
  | some country, some year, some co2, some population, some gdp =>
    if country ≠ "" ∧ 0 < co2 ∧ 0 < population ∧ 0 < gdp ∧
        1990 ≤ year ∧ year ≤ 2022 ∧ country ≠ "World" ∧
        hasSubstr "income" country = false then
      some { country := country, year := year, co2_emissions := co2,
             population := population / 1000000,
             gdp_per_capita := gdp / population,
             co2_per_capita :=
               ((rowData headers values "co2_per_capita").bind jsParseFloat).getD 0 }
    else none
  | _, _, _, _, _ => none

/-- One iteration of the row loop (lines 40–86): skip blank rows, skip rows
with fewer fields than headers, otherwise normalize. -/
def processRow (headers : List String) (row : List Char) : Option EmissionData :=
  if trimChars row = [] then none
  else
    let values := parseCSVRow row
    if values.length < headers.length then none
    else normalizeRow headers values

/-- Lines 32–86: split the CSV text into lines, read the header line (plain
comma split, each name trimmed), and collect the surviving records of the
remaining lines in order. -/
def processCSV (csvText : String) : List EmissionData :=
  let rows := splitOnChar '\n' csvText.data
  let headers := (splitOnChar ',' (rows.headD [])).map (fun cs => String.mk (trimChars cs))
  (rows.drop 1).filterMap (processRow headers)

/-- The 25 hard-coded fallback countries (source lines 128–133). -/
def countries : List String :=
  ["China", "United States", "India", "Russia", "Japan", "Germany", "Iran",
   "South Korea", "Saudi Arabia", "Indonesia", "Canada", "Mexico", "Brazil",
   "South Africa", "Turkey", "Australia", "United Kingdom", "Poland", "Italy",
   "France", "Ukraine", "Thailand", "Egypt", "Pakistan", "Argentina"]

/-- The record pushed for country index `ci` and year `1990 + yi`
(source lines 138–151).  `rand` is the `Math.random()` stream; each record
consumes six values, in source evaluation order. -/
def sampleRecord (rand : Nat → ℚ) (ci yi : Nat) : EmissionData :=
  let base := 6 * (ci * 33 + yi)
  let year : Int := 1990 + yi
  let baseEmissions := rand base * 10000 + 500
  let growthRate := (rand (base + 1) - 1/2) * (5/100)
  let yearFactor := ratZpow (1 + growthRate) (year - 2000)
  { country := countries.getD ci ""
  , year := year
  , co2_emissions := max 50 (baseEmissions * yearFactor + (rand (base + 2) - 1/2) * 500)
  , population := rand (base + 3) * 1000 + 10
  , gdp_per_capita := rand (base + 4) * 50000 + 5000
  , co2_per_capita := rand (base + 5) * 20 + 1 }

/-- `generateSampleData` (lines 127–156): 25 countries × years 1990–2022. -/
def generateSampleData (rand : Nat → ℚ) : List EmissionData :=
  (List.range countries.length).flatMap (fun ci =>
    (List.range 33).map (fun yi => sampleRecord rand ci yi))

/-- Outcome of the `fetch` call: a response (its `ok` flag and body text) or
a connection-level failure. -/
inductive FetchOutcome where
  | response (ok : Bool) (body : String)
  | networkError
  deriving DecidableEq

/-- Result of one call to `fetchRealCO2Data`: the dataset handed to the
caller, the contents of the module-level `cachedData` slot after the call,
and whether `fetch` was invoked. -/
structure LoadResult where
  data : List EmissionData
  newCache : Option (List EmissionData)
  didFetch : Bool

/-- `fetchRealCO2Data` (lines 13–101).  A populated cache is returned as is
without touching the network; otherwise the body is fetched and processed,
and only the real-pipeline result is written to the cache (line 91) — the
`catch` branch (lines 94–100) returns `generateSampleData()` without caching.
The function is total: every failure path yields the synthetic dataset. -/
def fetchRealCO2Data (cache : Option (List EmissionData)) (outcome : FetchOutcome)
    (rand : Nat → ℚ) : LoadResult :=
  match cache with
  | some d => ⟨d, some d, false⟩
  | none =>
    match outcome with
    | .networkError => ⟨generateSampleData rand, none, true⟩
    | .response ok body =>
      if ok then ⟨processCSV body, some (processCSV body), true⟩
      else ⟨generateSampleData rand, none, true⟩

/-- The head of `l`, if any, is not whitespace. -/
def noLead (l : List Char) : Prop := ∀ c, l.head? = some c → jsWhite c = false

/-- Number of comma delimiters outside double-quoted spans, starting with the
quote flag `inQ` (the spec's notion of field separators). -/
def unquotedCommaCount : List Char → Bool → Nat
  | [], _ => 0
  | c :: rest, inQ =>
    if c = '"' then unquotedCommaCount rest (!inQ)
    else if c = ',' ∧ inQ = false then unquotedCommaCount rest inQ + 1
    else unquotedCommaCount rest inQ

/-! ### Concrete test data -/

/-- The header row used by the round-trip property. -/
def stdHeaders : List String :=
  ["country", "year", "co2", "population", "gdp", "co2_per_capita"]

/-- The row values of the round-trip property. -/
def testVals : List String :=
  ["Testland", "2005", "100.5", "5000000", "250000000000", "20.1"]

/-- A two-line CSV: the six standard columns and one valid data row. -/
def testCSV : String :=
  "country,year,co2,population,gdp,co2_per_capita\nTestland,2005,100.5,5000000,250000000000,20.1"

/-- The record the round-trip row must normalize to. -/
def testRecord : EmissionData := ⟨"Testland", 2005, 201 / 2, 5, 50000, 201 / 10⟩

/-- The characters of the round-trip data row. -/
def testRowChars : List Char := "Testland,2005,100.5,5000000,250000000000,20.1".data

/-- A fixed `Math.random()` stream. -/
def rand0 : Nat → ℚ := fun _ => 1 / 2

/-- The fetch outcomes the `catch` absorbs: a non-`ok` response or a
connection failure. -/
def fetchFailed : FetchOutcome → Prop
  | .response ok _ => ok = false
  | .networkError => True

/-! ### Basic evaluations -/

example : parseCSVRow "a,\"b,c\",d".data = ["a", "b,c", "d"] := by decide
example : jsParseFloat "100.5" = some (201 / 2) := by
  simp +decide [jsParseFloat, parseFloatMag, digitsVal, ratNpow, ratZpow, floatExpVal, jsWhite]
  norm_num
example : jsParseFloat "abc" = none := by decide
example : jsParseInt " 2005" = some 2005 := by decide
example : jsParseFloat "250000000000" = some 250000000000 := by
  simp +decide [jsParseFloat, parseFloatMag, digitsVal, ratNpow, ratZpow, floatExpVal, jsWhite]
example : hasSubstr "income" "Low-income countries" = true := by decide
example : hasSubstr "income" "China" = false := by decide

/-! ### Helper lemmas about trimming -/

lemma dropWhile_self (p : Char → Bool) (l : List Char) :
    List.dropWhile p (List.dropWhile p l) = List.dropWhile p l := by
  induction l with
  | nil => simp
  | cons c cs ih =>
    by_cases h : p c
    · simp [List.dropWhile_cons, h, ih]
    · simp [List.dropWhile_cons, h]

lemma noLead_dropWhile (l : List Char) : noLead (l.dropWhile jsWhite) := by
  induction l with
  | nil => intro c hc; simp at hc
  | cons a as ih =>
    by_cases h : jsWhite a
    · simpa [List.dropWhile_cons, h] using ih
    · intro c hc
      simp [List.dropWhile_cons, h] at hc
      simpa [hc] using h

lemma dropWhile_of_noLead {l : List Char} (h : noLead l) : l.dropWhile jsWhite = l := by
  cases l with
  | nil => rfl
  | cons a as =>
    have := h a (by simp)
    simp [List.dropWhile_cons, this]

lemma noLead_reverse_dropWhile {Z : List Char} (h : noLead Z.reverse) :
    noLead (Z.dropWhile jsWhite).reverse := by
  have hsplit : Z.takeWhile jsWhite ++ Z.dropWhile jsWhite = Z :=
    List.takeWhile_append_dropWhile jsWhite Z
  have hrev : (Z.dropWhile jsWhite).reverse ++ (Z.takeWhile jsWhite).reverse = Z.reverse := by
    rw [← List.reverse_append, hsplit]
  intro c hc
  apply h c
  rw [← hrev]
  cases hM : (Z.dropWhile jsWhite).reverse with
  | nil => rw [hM] at hc; simp at hc
  | cons x xs =>
    rw [hM] at hc
    simp at hc
    simp [hc]

/-- Trimming is idempotent, hence every `parseCSVRow` output is trimmed. -/
lemma trimChars_trimChars (cs : List Char) : trimChars (trimChars cs) = trimChars cs := by
  unfold trimChars
  have h1 : noLead ((cs.dropWhile jsWhite).reverse.reverse) := by
    rw [List.reverse_reverse]; exact noLead_dropWhile cs
  have h2 : noLead (((cs.dropWhile jsWhite).reverse.dropWhile jsWhite).reverse) :=
    noLead_reverse_dropWhile h1
  rw [dropWhile_of_noLead h2, List.reverse_reverse, dropWhile_self]

lemma mem_of_mem_trimChars {c : Char} {cs : List Char} (h : c ∈ trimChars cs) : c ∈ cs := by
  unfold trimChars at h
  rw [List.mem_reverse] at h
  have h2 : c ∈ (cs.dropWhile jsWhite).reverse := by
    rw [← List.takeWhile_append_dropWhile jsWhite (cs.dropWhile jsWhite).reverse]
    exact List.mem_append_right _ h
  rw [List.mem_reverse] at h2
  rw [← List.takeWhile_append_dropWhile jsWhite cs]
  exact List.mem_append_right _ h2

/-! ### Characterization of the Record Normalizer -/

lemma normalizeRow_eq_some_iff (h v : List String) (r : EmissionData) :
    normalizeRow h v = some r ↔
      ∃ c y a p g, (rowData h v "country").map trimS = some c ∧
        (rowData h v "year").bind jsParseInt = some y ∧
        (rowData h v "co2").bind jsParseFloat = some a ∧
        (rowData h v "population").bind jsParseFloat = some p ∧
        (rowData h v "gdp").bind jsParseFloat = some g ∧
        (c ≠ "" ∧ 0 < a ∧ 0 < p ∧ 0 < g ∧ 1990 ≤ y ∧ y ≤ 2022 ∧ c ≠ "World" ∧
          hasSubstr "income" c = false) ∧
        r = ⟨c, y, a, p / 1000000, g / p,
          ((rowData h v "co2_per_capita").bind jsParseFloat).getD 0⟩ := by
  unfold normalizeRow
  cases hc : (rowData h v "country").map trimS with
  | none => simp
  | some c =>
    cases hy : (rowData h v "year").bind jsParseInt with
    | none => simp
    | some y =>
      cases ha : (rowData h v "co2").bind jsParseFloat with
      | none => simp
      | some a =>
        cases hp : (rowData h v "population").bind jsParseFloat with
        | none => simp
        | some p =>
          cases hg : (rowData h v "gdp").bind jsParseFloat with
          | none => simp
          | some g =>
            by_cases hcond : c ≠ "" ∧ 0 < a ∧ 0 < p ∧ 0 < g ∧ 1990 ≤ y ∧ y ≤ 2022 ∧
                c ≠ "World" ∧ hasSubstr "income" c = false
            · simp only [if_pos hcond, Option.some.injEq]
              constructor
              · intro hr
                exact ⟨c, y, a, p, g, rfl, rfl, rfl, rfl, rfl, hcond, hr.symm⟩
              · rintro ⟨c', y', a', p', g', hc', hy', ha', hp', hg', hcond', hr'⟩
                cases hc'; cases hy'; cases ha'; cases hp'; cases hg'
                exact hr'.symm
            · simp only [if_neg hcond]
              constructor
              · intro hfalse; exact absurd hfalse (by simp)
              · rintro ⟨c', y', a', p', g', hc', hy', ha', hp', hg', hcond', hr'⟩
                cases hc'; cases hy'; cases ha'; cases hp'; cases hg'
                exact absurd hcond' hcond

lemma normalizeRow_isSome_iff (h v : List String) :
    (normalizeRow h v).isSome = true ↔
      ∃ c y a p g, (rowData h v "country").map trimS = some c ∧
        (rowData h v "year").bind jsParseInt = some y ∧
        (rowData h v "co2").bind jsParseFloat = some a ∧
        (rowData h v "population").bind jsParseFloat = some p ∧
        (rowData h v "gdp").bind jsParseFloat = some g ∧
        (c ≠ "" ∧ 0 < a ∧ 0 < p ∧ 0 < g ∧ 1990 ≤ y ∧ y ≤ 2022 ∧ c ≠ "World" ∧
          hasSubstr "income" c = false) := by
  rw [Option.isSome_iff_exists]
  constructor
  · rintro ⟨r, hr⟩
    rw [normalizeRow_eq_some_iff] at hr
    obtain ⟨c, y, a, p, g, h1, h2, h3, h4, h5, hcond, _⟩ := hr
    exact ⟨c, y, a, p, g, h1, h2, h3, h4, h5, hcond⟩
  · rintro ⟨c, y, a, p, g, h1, h2, h3, h4, h5, hcond⟩
    exact ⟨_, (normalizeRow_eq_some_iff h v _).mpr
      ⟨c, y, a, p, g, h1, h2, h3, h4, h5, hcond, rfl⟩⟩

lemma normalizeRow_invariant (h v : List String) (r : EmissionData)
    (hr : normalizeRow h v = some r) :
    1990 ≤ r.year ∧ r.year ≤ 2022 ∧ 0 < r.co2_emissions ∧ 0 < r.population ∧
      0 < r.gdp_per_capita ∧ r.country ≠ "World" ∧
      hasSubstr "income" r.country = false := by
  rw [normalizeRow_eq_some_iff] at hr
  obtain ⟨c, y, a, p, g, _, _, _, _, _, hcond, hre⟩ := hr
  subst hre
  obtain ⟨-, ha, hp, hg, hy1, hy2, hw, hi⟩ := hcond
  exact ⟨hy1, hy2, ha, div_pos hp (by norm_num), div_pos hg hp, hw, hi⟩

lemma processRow_eq_some (h : List String) (row : List Char) (r : EmissionData)
    (hr : processRow h row = some r) : normalizeRow h (parseCSVRow row) = some r := by
  unfold processRow at hr
  by_cases h1 : trimChars row = []
  · simp [h1] at hr
  · simp only [if_neg h1] at hr
    by_cases h2 : (parseCSVRow row).length < h.length
    · simp [h2] at hr
    · simpa [h2] using hr

lemma mem_processCSV (csvText : String) (r : EmissionData) (hr : r ∈ processCSV csvText) :
    ∃ headers values, normalizeRow headers values = some r := by
  unfold processCSV at hr
  simp only [List.mem_filterMap] at hr
  obtain ⟨row, -, hrow⟩ := hr
  exact ⟨_, _, processRow_eq_some _ _ _ hrow⟩

/-! ### The Synthetic Data Generator -/

lemma generateSampleData_length (rand : Nat → ℚ) :
    (generateSampleData rand).length = 825 := by
  simp only [generateSampleData, List.length_flatMap, Function.comp_def, List.length_map]
  decide

lemma countries_prop : ∀ i, i < 25 →
    countries.getD i "" ≠ "World" ∧ hasSubstr "income" (countries.getD i "") = false := by
  decide

lemma generateSampleData_invariant (rand : Nat → ℚ) (hrand : ∀ n, 0 ≤ rand n)
    (r : EmissionData) (hr : r ∈ generateSampleData rand) :
    1990 ≤ r.year ∧ r.year ≤ 2022 ∧ 0 < r.co2_emissions ∧ 0 < r.population ∧
      0 < r.gdp_per_capita ∧ r.country ≠ "World" ∧
      hasSubstr "income" r.country = false := by
  unfold generateSampleData at hr
  simp only [List.mem_flatMap, List.mem_map, List.mem_range] at hr
  obtain ⟨ci, hci, yi, hyi, hre⟩ := hr
  have hci25 : ci < 25 := by simpa [countries] using hci
  subst hre
  simp only [sampleRecord]
  refine ⟨by omega, by omega, ?_, ?_, ?_, (countries_prop ci hci25).1,
    (countries_prop ci hci25).2⟩
  · exact lt_of_lt_of_le (by norm_num) (le_max_left _ _)
  · have h0 : (0 : ℚ) ≤ rand (6 * (ci * 33 + yi) + 3) * 1000 :=
      mul_nonneg (hrand _) (by norm_num)
    linarith
  · have h0 : (0 : ℚ) ≤ rand (6 * (ci * 33 + yi) + 4) * 50000 :=
      mul_nonneg (hrand _) (by norm_num)
    linarith

/-! ### The CSV Row Parser -/

lemma parseCSVAux_length (cs : List Char) :
    ∀ current inQ, (parseCSVAux cs current inQ).length = unquotedCommaCount cs inQ + 1 := by
  induction cs with
  | nil => intro current inQ; simp [parseCSVAux, unquotedCommaCount]
  | cons c rest ih =>
    intro current inQ
    by_cases hq : c = '"'
    · simp [parseCSVAux, unquotedCommaCount, hq, ih]
    · by_cases hc : c = ',' ∧ inQ = false
      · simp [parseCSVAux, unquotedCommaCount, hq, hc, ih]
      · simp [parseCSVAux, unquotedCommaCount, hq, hc, ih]

lemma parseCSVAux_no_quote (cs : List Char) :
    ∀ current inQ, '"' ∉ current →
      ∀ s ∈ parseCSVAux cs current inQ, '"' ∉ s.data := by
  induction cs with
  | nil =>
    intro current inQ hcur s hs
    simp only [parseCSVAux, List.mem_singleton] at hs
    subst hs
    intro hmem
    exact hcur (mem_of_mem_trimChars hmem)
  | cons c rest ih =>
    intro current inQ hcur s hs
    by_cases hq : c = '"'
    · rw [parseCSVAux, if_pos hq] at hs
      exact ih current (!inQ) hcur s hs
    · by_cases hc : c = ',' ∧ inQ = false
      · rw [parseCSVAux, if_neg hq, if_pos hc] at hs
        rcases List.mem_cons.mp hs with hs1 | hs2
        · subst hs1
          intro hmem
          exact hcur (mem_of_mem_trimChars hmem)
        · exact ih [] false (by simp) s hs2
      · rw [parseCSVAux, if_neg hq, if_neg hc] at hs
        refine ih (current ++ [c]) inQ ?_ s hs
        intro hmem
        rcases List.mem_append.mp hmem with hm | hm
        · exact hcur hm
        · simp at hm; exact hq hm.symm

/-! ### Header lookup lemmas -/

lemma lastIdxFrom_bounds (key : String) :
    ∀ (hs : List String) (n i : Nat), lastIdxFrom key hs n = some i →
      n ≤ i ∧ i < n + hs.length := by
  intro hs
  induction hs with
  | nil => intro n i h; simp [lastIdxFrom] at h
  | cons h hs ih =>
    intro n i heq
    rw [lastIdxFrom] at heq
    cases hrec : lastIdxFrom key hs (n + 1) with
    | some j =>
      rw [hrec] at heq
      cases heq
      have := ih (n + 1) i hrec
      simp only [List.length_cons]
      omega
    | none =>
      rw [hrec] at heq
      by_cases hk : h = key
      · rw [if_pos hk] at heq
        cases heq
        simp only [List.length_cons]
        omega
      · rw [if_neg hk] at heq
        exact absurd heq (by simp)

lemma lastIdxFrom_getD (key : String) :
    ∀ (hs : List String) (n i : Nat), lastIdxFrom key hs n = some i →
      hs.getD (i - n) "" = key := by
  intro hs
  induction hs with
  | nil => intro n i h; simp [lastIdxFrom] at h
  | cons h hs ih =>
    intro n i heq
    rw [lastIdxFrom] at heq
    cases hrec : lastIdxFrom key hs (n + 1) with
    | some j =>
      rw [hrec] at heq
      cases heq
      have hb := lastIdxFrom_bounds key hs (n + 1) i hrec
      have hstep : i - n = (i - (n + 1)) + 1 := by omega
      rw [hstep, List.getD_cons_succ]
      exact ih (n + 1) i hrec
    | none =>
      rw [hrec] at heq
      by_cases hk : h = key
      · rw [if_pos hk] at heq
        cases heq
        simp [hk]
      · rw [if_neg hk] at heq
        exact absurd heq (by simp)

lemma getD_take_of_lt (v : List String) :
    ∀ (n i : Nat), i < n → (v.take n).getD i "" = v.getD i "" := by
  induction v with
  | nil => simp
  | cons a as ih =>
    intro n i hin
    cases n with
    | zero => omega
    | succ n =>
      cases i with
      | zero => simp
      | succ i =>
        rw [List.take_succ_cons, List.getD_cons_succ, List.getD_cons_succ]
        exact ih n i (by omega)

lemma getD_set_ne (v : List String) :
    ∀ (i j : Nat) (s : String), i ≠ j → (v.set i s).getD j "" = v.getD j "" := by
  induction v with
  | nil => simp
  | cons a as ih =>
    intro i j s hij
    cases i with
    | zero =>
      cases j with
      | zero => omega
      | succ j => simp [List.set]
    | succ i =>
      cases j with
      | zero => simp [List.set]
      | succ j =>
        rw [List.set_cons_succ, List.getD_cons_succ, List.getD_cons_succ]
        exact ih i j s (by omega)

/-- `rowData` only looks at the first `headers.length` row values. -/
lemma rowData_take (headers values : List String) (key : String) :
    rowData headers (values.take headers.length) key = rowData headers values key := by
  unfold rowData
  cases hid : lastIdxFrom key headers 0 with
  | none => simp
  | some i =>
    have hb := lastIdxFrom_bounds key headers 0 i hid
    simp only [Option.map]
    rw [getD_take_of_lt values headers.length i (by omega)]

/-- Setting a row value at a position whose header is a different name leaves
`rowData` at `key` unchanged. -/
lemma rowData_set_ne (headers values : List String) (key : String) (i : Nat) (s : String)
    (hkey : headers.getD i "" ≠ key) :
    rowData headers (values.set i s) key = rowData headers values key := by
  unfold rowData
  cases hid : lastIdxFrom key headers 0 with
  | none => simp
  | some j =>
    have hj : headers.getD j "" = key := by
      have := lastIdxFrom_getD key headers 0 j hid
      simpa using this
    have hij : i ≠ j := by
      intro he
      exact hkey (he ▸ hj)
    simp only [Option.map]
    rw [getD_set_ne values i j s hij]

lemma normalizeRow_testRow : normalizeRow stdHeaders testVals = some testRecord := by
  apply (normalizeRow_eq_some_iff _ _ _).mpr
  refine ⟨"Testland", 2005, 201 / 2, 5000000, 250000000000, ?_, ?_, ?_, ?_, ?_, ?_, ?_⟩
  · decide
  · decide
  · have hl : rowData stdHeaders testVals "co2" = some "100.5" := by decide
    rw [hl]
    simp +decide [jsParseFloat, parseFloatMag, digitsVal, ratNpow, ratZpow, floatExpVal,
      jsWhite]
    norm_num
  · have hl : rowData stdHeaders testVals "population" = some "5000000" := by decide
    rw [hl]
    simp +decide [jsParseFloat, parseFloatMag, digitsVal, ratNpow, ratZpow, floatExpVal,
      jsWhite]
  · have hl : rowData stdHeaders testVals "gdp" = some "250000000000" := by decide
    rw [hl]
    simp +decide [jsParseFloat, parseFloatMag, digitsVal, ratNpow, ratZpow, floatExpVal,
      jsWhite]
  · refine ⟨by decide, by norm_num, by norm_num, by norm_num, by decide, by decide,
      by decide, by decide⟩
  · have hcc : (rowData stdHeaders testVals "co2_per_capita").bind jsParseFloat
        = some (201 / 10) := by
      have hl : rowData stdHeaders testVals "co2_per_capita" = some "20.1" := by decide
      rw [hl]
      simp +decide [jsParseFloat, parseFloatMag, digitsVal, ratNpow, ratZpow, floatExpVal,
        jsWhite]
      norm_num
    rw [hcc]
    norm_num [testRecord, Option.getD_some, EmissionData.mk.injEq]

lemma processRow_testRow :
    processRow stdHeaders testRowChars = some testRecord := by
  have hv : parseCSVRow testRowChars = testVals := by
    decide
  simp only [processRow]
  rw [if_neg (by decide), hv, if_neg (by decide)]
  exact normalizeRow_testRow

lemma processCSV_testCSV : processCSV testCSV = [testRecord] := by
  have hsplit : splitOnChar '\n' testCSV.data =
      ["country,year,co2,population,gdp,co2_per_capita".data, testRowChars] := by decide
  have hhead : (splitOnChar ','
      "country,year,co2,population,gdp,co2_per_capita".data).map
      (fun cs => String.mk (trimChars cs)) = stdHeaders := by decide
  simp only [processCSV]
  rw [hsplit]
  simp only [List.headD_cons, List.drop_succ_cons, List.drop_zero]
  rw [hhead]
  rw [List.filterMap_cons, List.filterMap_nil, processRow_testRow]

lemma parseCSVAux_trimmed (cs : List Char) :
    ∀ current inQ, ∀ s ∈ parseCSVAux cs current inQ,
      ∃ ds, s = String.mk (trimChars ds) := by
  induction cs with
  | nil =>
    intro current inQ s hs
    simp only [parseCSVAux, List.mem_singleton] at hs
    exact ⟨current, hs⟩
  | cons c rest ih =>
    intro current inQ s hs
    by_cases hq : c = '"'
    · rw [parseCSVAux, if_pos hq] at hs
      exact ih current (!inQ) s hs
    · by_cases hc : c = ',' ∧ inQ = false
      · rw [parseCSVAux, if_neg hq, if_pos hc] at hs
        rcases List.mem_cons.mp hs with h1 | h2
        · exact ⟨current, h1⟩
        · exact ih [] false s h2
      · rw [parseCSVAux, if_neg hq, if_neg hc] at hs
        exact ih (current ++ [c]) inQ s hs

/-! ### Claim theorems -/

/-- C4.  A candidate row passes the Validation Filter (the Record Normalizer
produces a record) iff: the country field exists and, trimmed, is non-empty,
is not exactly "World" and has no "income" substring; the year parses with
1990 ≤ year ≤ 2022; and co2, population, gdp all parse (not NaN) with
co2 > 0, raw population > 0, gdp > 0.  Moreover a row whose trimmed country
is "World" or contains "income" is rejected regardless of the other fields. -/
theorem validation_filter_accepts_iff (h v : List String) :
    ((normalizeRow h v).isSome = true ↔
      (∃ c, (rowData h v "country").map trimS = some c ∧ c ≠ "" ∧ c ≠ "World" ∧
        hasSubstr "income" c = false) ∧
      (∃ y, (rowData h v "year").bind jsParseInt = some y ∧ 1990 ≤ y ∧ y ≤ 2022) ∧
      (∃ a, (rowData h v "co2").bind jsParseFloat = some a ∧ 0 < a) ∧
      (∃ p, (rowData h v "population").bind jsParseFloat = some p ∧ 0 < p) ∧
      (∃ g, (rowData h v "gdp").bind jsParseFloat = some g ∧ 0 < g)) ∧
    (∀ c, (rowData h v "country").map trimS = some c →
      (c = "World" ∨ hasSubstr "income" c = true) → normalizeRow h v = none) := by
  constructor
  · rw [normalizeRow_isSome_iff]
    constructor
    · rintro ⟨c, y, a, p, g, h1, h2, h3, h4, h5, hc1, ha, hp, hg, hy1, hy2, hc2, hc3⟩
      exact ⟨⟨c, h1, hc1, hc2, hc3⟩, ⟨y, h2, hy1, hy2⟩, ⟨a, h3, ha⟩, ⟨p, h4, hp⟩,
        ⟨g, h5, hg⟩⟩
    · rintro ⟨⟨c, h1, hc1, hc2, hc3⟩, ⟨y, h2, hy1, hy2⟩, ⟨a, h3, ha⟩, ⟨p, h4, hp⟩,
        ⟨g, h5, hg⟩⟩
      exact ⟨c, y, a, p, g, h1, h2, h3, h4, h5, hc1, ha, hp, hg, hy1, hy2, hc2, hc3⟩
  · intro c hlook hbad
    cases hn : normalizeRow h v with
    | none => rfl
    | some r =>
      have hsome : (normalizeRow h v).isSome = true := by rw [hn]; rfl
      rw [normalizeRow_isSome_iff] at hsome
      obtain ⟨c', y, a, p, g, h1, -, -, -, -, -, -, -, -, -, -, hc2, hc3⟩ := hsome
      rw [hlook] at h1
      cases h1
      rcases hbad with hb | hb
      · exact absurd hb hc2
      · rw [hb] at hc3
        exact absurd hc3 (by simp)

/-- Witness for C4 at a concrete rejected row. -/
theorem validation_filter_accepts_iff_witness :
    normalizeRow ["country", "year", "co2", "population", "gdp"]
      ["World", "2000", "1", "1", "1"] = none :=
  (validation_filter_accepts_iff _ _).2 "World" (by decide) (Or.inl rfl)

/-- C7.  A parsed row with fewer fields than the header count is rejected:
the row loop produces no record for it. -/
theorem short_row_rejected (headers : List String) (row : List Char)
    (h : (parseCSVRow row).length < headers.length) :
    processRow headers row = none := by
  simp only [processRow]
  by_cases h1 : trimChars row = []
  · simp [h1]
  · simp [h1, h]

/-- Witness for C7: a two-field row against a three-column header. -/
theorem short_row_rejected_witness :
    processRow ["country", "year", "co2"] "a,b".data = none :=
  short_row_rejected ["country", "year", "co2"] "a,b".data (by decide)

/-- C9.  A non-blank row with at least as many fields as headers is not
rejected for its field count, and the surplus values are ignored: the result
only depends on the first `headers.length` fields. -/
theorem surplus_fields_ignored (headers : List String) (row : List Char)
    (h1 : trimChars row ≠ []) (h2 : headers.length ≤ (parseCSVRow row).length) :
    processRow headers row = normalizeRow headers (parseCSVRow row) ∧
    normalizeRow headers (parseCSVRow row) =
      normalizeRow headers ((parseCSVRow row).take headers.length) := by
  constructor
  · simp only [processRow]
    rw [if_neg h1, if_neg (by omega)]
  · have hk : ∀ key, rowData headers ((parseCSVRow row).take headers.length) key
        = rowData headers (parseCSVRow row) key :=
      fun key => rowData_take headers (parseCSVRow row) key
    unfold normalizeRow
    rw [hk "country", hk "year", hk "co2", hk "population", hk "gdp",
      hk "co2_per_capita"]

/-- Witness for C9: a seven-field row against the six standard headers. -/
theorem surplus_fields_ignored_witness :
    processRow stdHeaders "a,b,c,d,e,f,g".data =
      normalizeRow stdHeaders (parseCSVRow "a,b,c,d,e,f,g".data) ∧
    normalizeRow stdHeaders (parseCSVRow "a,b,c,d,e,f,g".data) =
      normalizeRow stdHeaders ((parseCSVRow "a,b,c,d,e,f,g".data).take
        stdHeaders.length) :=
  surplus_fields_ignored stdHeaders "a,b,c,d,e,f,g".data (by decide) (by decide)

/-- C6.  The CSV Row Parser yields exactly one field per comma delimiter
outside double-quoted spans plus one trailing field, every field is trimmed
(trimming it again changes nothing), and on `a,"b,c",d` it yields exactly
`["a", "b,c", "d"]`. -/
theorem csv_row_parser_spec :
    (∀ row : List Char, (parseCSVRow row).length = unquotedCommaCount row false + 1) ∧
    (∀ (row : List Char) (s : String), s ∈ parseCSVRow row → trimS s = s) ∧
    parseCSVRow "a,\"b,c\",d".data = ["a", "b,c", "d"] := by
  refine ⟨?_, ?_, by decide⟩
  · intro row
    exact parseCSVAux_length row [] false
  · intro row s hs
    obtain ⟨ds, rfl⟩ := parseCSVAux_trimmed row [] false s hs
    simp only [trimS]
    rw [trimChars_trimChars]

/-- Witness for C6 at a concrete line with spaces and a quoted comma. -/
theorem csv_row_parser_spec_witness :
    (parseCSVRow " a , \"b,c\" ".data).length =
      unquotedCommaCount " a , \"b,c\" ".data false + 1 ∧
    trimS "b,c" = "b,c" :=
  ⟨csv_row_parser_spec.1 " a , \"b,c\" ".data,
   csv_row_parser_spec.2.1 " a , \"b,c\" ".data "b,c" (by decide)⟩

/-- C10.  No output field of the CSV Row Parser contains a double quote:
every `"` only toggles the quote flag and is dropped; in particular the
unquoted input `a"b` yields the single field `ab`. -/
theorem csv_row_parser_drops_quotes :
    (∀ (row : List Char) (s : String), s ∈ parseCSVRow row → '"' ∉ s.data) ∧
    parseCSVRow "a\"b".data = ["ab"] := by
  refine ⟨?_, by decide⟩
  intro row s hs
  exact parseCSVAux_no_quote row [] false (by simp) s hs

/-- Witness for C10 at the quoted-comma example. -/
theorem csv_row_parser_drops_quotes_witness : '"' ∉ ("b,c" : String).data :=
  csv_row_parser_drops_quotes.1 "a,\"b,c\",d".data "b,c" (by decide)

/-- C8.  The stored `co2_per_capita` is the parsed source value when the
column parses, and 0 otherwise; and whether a row is accepted never depends
on the `co2_per_capita` column: overwriting the value at the header position
named `co2_per_capita` does not change acceptance. -/
theorem co2_per_capita_passthrough :
    (∀ (h v : List String) (r : EmissionData), normalizeRow h v = some r →
      r.co2_per_capita = ((rowData h v "co2_per_capita").bind jsParseFloat).getD 0) ∧
    (∀ (h v : List String) (i : Nat) (s : String),
      lastIdxFrom "co2_per_capita" h 0 = some i →
      ((normalizeRow h (v.set i s)).isSome = true ↔
        (normalizeRow h v).isSome = true)) := by
  constructor
  · intro h v r hr
    rw [normalizeRow_eq_some_iff] at hr
    obtain ⟨c, y, a, p, g, -, -, -, -, -, -, hre⟩ := hr
    rw [hre]
  · intro h v i s hidx
    have hne : ∀ key, key ≠ "co2_per_capita" →
        rowData h (v.set i s) key = rowData h v key := by
      intro key hkey
      apply rowData_set_ne
      have hgd := lastIdxFrom_getD "co2_per_capita" h 0 i hidx
      simp only [Nat.sub_zero] at hgd
      rw [hgd]
      exact fun he => hkey he.symm
    rw [normalizeRow_isSome_iff, normalizeRow_isSome_iff,
      hne "country" (by decide), hne "year" (by decide), hne "co2" (by decide),
      hne "population" (by decide), hne "gdp" (by decide)]

/-- Witness for C8: the round-trip row, and overwriting its
`co2_per_capita` field with non-numeric text. -/
theorem co2_per_capita_passthrough_witness :
    testRecord.co2_per_capita =
      ((rowData stdHeaders testVals "co2_per_capita").bind jsParseFloat).getD 0 ∧
    ((normalizeRow stdHeaders (testVals.set 5 "n/a")).isSome = true ↔
      (normalizeRow stdHeaders testVals).isSome = true) :=
  ⟨co2_per_capita_passthrough.1 stdHeaders testVals testRecord normalizeRow_testRow,
   co2_per_capita_passthrough.2 stdHeaders testVals 5 "n/a" (by decide)⟩

/-- C5.  The round-trip: the two-line test CSV produces exactly the record
`{country := Testland, year := 2005, co2Emissions := 100.5, population := 5,
gdpPerCapita := 50000, co2PerCapita := 20.1}`; in general the stored
`gdp_per_capita` is raw gdp over raw (pre-conversion) population and the
stored `population` is the raw value divided by 1,000,000. -/
theorem normalizer_round_trip :
    processCSV testCSV = [testRecord] ∧
    (∀ (h v : List String) (r : EmissionData), normalizeRow h v = some r →
      ∃ p g, (rowData h v "population").bind jsParseFloat = some p ∧
        (rowData h v "gdp").bind jsParseFloat = some g ∧
        r.gdp_per_capita = g / p ∧ r.population = p / 1000000) := by
  refine ⟨processCSV_testCSV, ?_⟩
  intro h v r hr
  rw [normalizeRow_eq_some_iff] at hr
  obtain ⟨c, y, a, p, g, -, -, -, hp, hg, -, hre⟩ := hr
  exact ⟨p, g, hp, hg, by rw [hre], by rw [hre]⟩

/-- Witness for C5's general part at the round-trip row. -/
theorem normalizer_round_trip_witness :
    ∃ p g, (rowData stdHeaders testVals "population").bind jsParseFloat = some p ∧
      (rowData stdHeaders testVals "gdp").bind jsParseFloat = some g ∧
      testRecord.gdp_per_capita = g / p ∧ testRecord.population = p / 1000000 :=
  normalizer_round_trip.2 stdHeaders testVals testRecord normalizeRow_testRow

/-- C1.  Every record in a freshly produced dataset — real pipeline or
synthetic fallback — has year in [1990, 2022], positive emissions,
population and GDP per capita, a country that is not "World" and contains no
"income" substring.  The `Math.random()` stream is assumed to stay in
[0, 1), as the runtime guarantees. -/
theorem dataset_invariants (outcome : FetchOutcome) (rand : Nat → ℚ)
    (hrand : ∀ n, 0 ≤ rand n ∧ rand n < 1) :
    ∀ r ∈ (fetchRealCO2Data none outcome rand).data,
      1990 ≤ r.year ∧ r.year ≤ 2022 ∧ 0 < r.co2_emissions ∧ 0 < r.population ∧
      0 < r.gdp_per_capita ∧ r.country ≠ "World" ∧
      hasSubstr "income" r.country = false := by
  intro r hr
  have hrand0 : ∀ n, 0 ≤ rand n := fun n => (hrand n).1
  cases outcome with
  | networkError =>
    simp only [fetchRealCO2Data] at hr
    exact generateSampleData_invariant rand hrand0 r hr
  | response ok body =>
    cases ok with
    | false =>
      simp [fetchRealCO2Data] at hr
      exact generateSampleData_invariant rand hrand0 r hr
    | true =>
      simp [fetchRealCO2Data] at hr
      obtain ⟨h', v', hr'⟩ := mem_processCSV body r hr
      exact normalizeRow_invariant h' v' r hr'

/-- Witness for C1 at a real-pipeline load of the test CSV. -/
theorem dataset_invariants_witness :
    1990 ≤ testRecord.year ∧ testRecord.year ≤ 2022 ∧ 0 < testRecord.co2_emissions ∧
    0 < testRecord.population ∧ 0 < testRecord.gdp_per_capita ∧
    testRecord.country ≠ "World" ∧ hasSubstr "income" testRecord.country = false :=
  dataset_invariants (.response true testCSV) rand0
    (fun n => ⟨by norm_num [rand0], by norm_num [rand0]⟩) testRecord
    (by simp [fetchRealCO2Data, processCSV_testCSV])

/-- C2.  On any fetch failure (non-`ok` response or network error) a fresh
load still returns a dataset: the synthetic one, which is never empty (it
has 825 records regardless of the random stream) and needs no network.  The
load operation is total, so no failure propagates to the caller. -/
theorem fallback_on_failure (outcome : FetchOutcome) (rand : Nat → ℚ)
    (hfail : fetchFailed outcome) :
    (fetchRealCO2Data none outcome rand).data = generateSampleData rand ∧
    (fetchRealCO2Data none outcome rand).data ≠ [] ∧
    (fetchRealCO2Data none outcome rand).data.length = 825 := by
  have hdata : (fetchRealCO2Data none outcome rand).data = generateSampleData rand := by
    cases outcome with
    | networkError => simp [fetchRealCO2Data]
    | response ok body =>
      cases ok with
      | false => simp [fetchRealCO2Data]
      | true => exact absurd hfail (by simp [fetchFailed])
  refine ⟨hdata, ?_, by rw [hdata]; exact generateSampleData_length rand⟩
  rw [hdata]
  intro hnil
  have hlen := generateSampleData_length rand
  rw [hnil] at hlen
  simp at hlen

/-- Witness for C2 at a non-`ok` HTTP response. -/
theorem fallback_on_failure_witness :
    (fetchRealCO2Data none (.response false "") rand0).data = generateSampleData rand0 ∧
    (fetchRealCO2Data none (.response false "") rand0).data ≠ [] ∧
    (fetchRealCO2Data none (.response false "") rand0).data.length = 825 :=
  fallback_on_failure (.response false "") rand0 rfl

/-- C3 fails on the code: a dataset produced by the synthetic fallback is
NOT remembered — `cachedData` is only assigned on the real-pipeline path, so
after a failed first load the cache is still empty, the second call hits the
network again, and (here, when it then succeeds) returns different records. -/
theorem fallback_not_cached_counterexample :
    (fetchRealCO2Data none (.response false "") rand0).newCache = none ∧
    (fetchRealCO2Data (fetchRealCO2Data none (.response false "") rand0).newCache
        (.response true testCSV) rand0).didFetch = true ∧
    (fetchRealCO2Data (fetchRealCO2Data none (.response false "") rand0).newCache
        (.response true testCSV) rand0).data ≠
      (fetchRealCO2Data none (.response false "") rand0).data := by
  refine ⟨rfl, rfl, ?_⟩
  intro heq
  have h1 : (fetchRealCO2Data (fetchRealCO2Data none (.response false "") rand0).newCache
      (.response true testCSV) rand0).data = [testRecord] := by
    simp [fetchRealCO2Data, processCSV_testCSV]
  have h2 : (fetchRealCO2Data none (.response false "") rand0).data =
      generateSampleData rand0 := by
    simp [fetchRealCO2Data]
  rw [h1, h2] at heq
  have hlen := generateSampleData_length rand0
  rw [← heq] at hlen
  simp at hlen

/-- C3 amended: only a real-pipeline dataset is cached.  A call with a
populated cache returns it unchanged without fetching; a successful fresh
load caches exactly what it returns; a failed fresh load leaves the cache
empty. -/
theorem cache_real_pipeline_only :
    (∀ (d : List EmissionData) (outcome : FetchOutcome) (rand : Nat → ℚ),
      fetchRealCO2Data (some d) outcome rand = ⟨d, some d, false⟩) ∧
    (∀ (body : String) (rand : Nat → ℚ),
      fetchRealCO2Data none (.response true body) rand =
        ⟨processCSV body, some (processCSV body), true⟩) ∧
    (∀ (outcome : FetchOutcome) (rand : Nat → ℚ), fetchFailed outcome →
      (fetchRealCO2Data none outcome rand).newCache = none) := by
  refine ⟨fun d outcome rand => rfl, fun body rand => rfl, ?_⟩
  intro outcome rand hfail
  cases outcome with
  | networkError => rfl
  | response ok body =>
    cases ok with
    | false => rfl
    | true => exact absurd hfail (by simp [fetchFailed])

/-- Witness for the amended C3. -/
theorem cache_real_pipeline_only_witness :
    fetchRealCO2Data (some [testRecord]) .networkError rand0 =
      ⟨[testRecord], some [testRecord], false⟩ ∧
    fetchRealCO2Data none (.response true testCSV) rand0 =
      ⟨processCSV testCSV, some (processCSV testCSV), true⟩ ∧
    (fetchRealCO2Data none .networkError rand0).newCache = none :=
  ⟨cache_real_pipeline_only.1 [testRecord] .networkError rand0,
   cache_real_pipeline_only.2.1 testCSV rand0,
   cache_real_pipeline_only.2.2 .networkError rand0 trivial⟩
